import Mathlib

/-!
Verification of the PPO poker agent (`src/agents/agent_ppo.py`).

The embedding models the agent's numeric data as exact rationals.  A float32
tensor entry is modelled by `FVal`, a rational extended with the three
non-finite IEEE values (`nan`, `inf`, `ninf`); finite-arithmetic overflow is
not modelled (rationals are exact), which is the standard idealization for
this kind of code.  External collaborators (the torch network forward pass,
`torch.exp`/`log`, the sampling RNG, and the optimizer step) are passed in as
explicit function parameters, mirroring the fact that the Python code
delegates those computations to the torch library.
-/

namespace PokerBot

/-- Model of one float32 tensor entry: a finite rational or one of the
IEEE non-finite values NaN, +inf, -inf. -/
inductive FVal where
  | fin : ℚ → FVal
  | nan : FVal
  | inf : FVal
  | ninf : FVal
deriving DecidableEq, Repr

namespace FVal

/-- `torch.isnan` on one entry. -/
def isNan : FVal → Bool
  | nan => true
  | _ => false

/-- Finiteness test (`torch.isfinite`). -/
def isFin : FVal → Bool
  | fin _ => true
  | _ => false

/-- The finite rational carried by the entry (junk value 0 on non-finite). -/
def toQ : FVal → ℚ
  | fin q => q
  | _ => 0

/-- Largest finite float32 value, `(2 - 2^-23) * 2^127`. -/
def floatMax : ℚ := (2 ^ 24 - 1) * 2 ^ 104

/-- `torch.nan_to_num(·, nan=0.0)`: NaN becomes 0, and (by torch's
documented default) +inf / -inf become the largest / least finite float32
value.  Finite entries are unchanged. -/
def nan_to_num : FVal → FVal
  | nan => fin 0
  | inf => fin floatMax
  | ninf => fin (-floatMax)
  | fin q => fin q

/-- IEEE addition on extended values (used for the `logits + mask` sum). -/
def add : FVal → FVal → FVal
  | nan, _ => nan
  | _, nan => nan
  | inf, ninf => nan
  | ninf, inf => nan
  | inf, _ => inf
  | _, inf => inf
  | ninf, _ => ninf
  | _, ninf => ninf
  | fin a, fin b => fin (a + b)

/-- IEEE subtraction on extended values. -/
def sub : FVal → FVal → FVal
  | nan, _ => nan
  | _, nan => nan
  | inf, inf => nan
  | ninf, ninf => nan
  | inf, _ => inf
  | fin _, inf => ninf
  | ninf, _ => ninf
  | fin _, ninf => inf
  | fin a, fin b => fin (a - b)

/-- IEEE binary max (NaN propagates, as in torch max reductions). -/
def max2 : FVal → FVal → FVal
  | nan, _ => nan
  | _, nan => nan
  | inf, _ => inf
  | _, inf => inf
  | ninf, y => y
  | x, ninf => x
  | fin a, fin b => fin (max a b)

/-- IEEE division on extended values (signed zero is not modelled). -/
def div : FVal → FVal → FVal
  | nan, _ => nan
  | _, nan => nan
  | inf, inf => nan
  | inf, ninf => nan
  | ninf, inf => nan
  | ninf, ninf => nan
  | inf, fin b => if b < 0 then ninf else inf
  | ninf, fin b => if b < 0 then inf else ninf
  | fin _, inf => fin 0
  | fin _, ninf => fin 0
  | fin a, fin b =>
      if b = 0 then (if a = 0 then nan else if 0 < a then inf else ninf)
      else fin (a / b)

/-- The exponential on extended values; the finite case is delegated to the
abstract strictly positive function `expf` standing in for `Real.exp`. -/
def expv (expf : ℚ → ℚ) : FVal → FVal
  | nan => nan
  | inf => inf
  | ninf => fin 0
  | fin q => fin (expf q)

end FVal

/-- `torch.nan_to_num(state, nan=0.0)` applied to a whole observation vector
(lines 85-86 and 149 of the source). -/
def sanitize (obs : List FVal) : List FVal := obs.map FVal.nan_to_num

/-- Modelled from the spec: `gym_env.enums.Action` is not under `src/`.
Playable poker action identifiers; each carries an integer index in
`[0, action_size)` usable to address the logits / mask arrays. -/
inductive Action where
  | FOLD | CHECK | CALL | RAISE_POT | RAISE_HALF_POT | RAISE_2POT
deriving DecidableEq, Repr

/-- Modelled from the spec: the integer index (`.value`) of each playable
action identifier. -/
def Action.val : Action → Nat
  | .FOLD => 0
  | .CHECK => 1
  | .CALL => 2
  | .RAISE_POT => 3
  | .RAISE_HALF_POT => 4
  | .RAISE_2POT => 5

/-- Modelled from the spec: `gym_env.enums.Stage` is not under `src/`; only
the distinguished terminal SHOWDOWN marker matters to the agent. -/
inductive Stage where
  | SHOWDOWN
deriving DecidableEq, Repr

/-- Modelled from the spec: the raw integer value of the stage marker; its
exact value is irrelevant (it is only used in a removal that can never
match a playable action). -/
def Stage.val : Stage → Nat
  | .SHOWDOWN => 6

/-- An element of the environment's `legal_moves` collection: a playable
action, a stage marker, or a raw integer. -/
inductive EnvId where
  | act : Action → EnvId
  | stage : Stage → EnvId
  | raw : Nat → EnvId
deriving DecidableEq, Repr

/-- The integer index used to address the mask array (`action.value`). -/
def EnvId.val : EnvId → Nat
  | .act a => a.val
  | .stage s => s.val
  | .raw k => k

/-- The fixed domain of playable player actions (source lines 65-68). -/
def this_player_action_space : List Action :=
  [.FOLD, .CHECK, .CALL, .RAISE_POT, .RAISE_HALF_POT, .RAISE_2POT]

/-- Python `list.remove` guarded by a membership test: removes the first
occurrence of `x` when present, otherwise leaves the list unchanged. -/
def removeFirst [DecidableEq α] (x : α) : List α → List α
  | [] => []
  | y :: ys => if y = x then ys else y :: removeFirst x ys

/-- Source lines 71-77: intersect the fixed playable domain with the provided
`action_space`, then remove the SHOWDOWN marker by identity and by raw
value.  (Python iterates a hash set here, so the order of the intersection
is unspecified; the claims under verification are order-independent.) -/
def allowed_actions (action_space : List EnvId) : List EnvId :=
  removeFirst (EnvId.raw Stage.SHOWDOWN.val)
    (removeFirst (EnvId.stage Stage.SHOWDOWN)
      ((this_player_action_space.map EnvId.act).filter (· ∈ action_space)))

/-- `random.choice(range(n))` driven by an explicit randomness oracle `rnd`;
every index in `[0, n)` is a possible outcome. -/
def random_choice (n : Nat) (rnd : Nat) : Nat := rnd % n

/-- The additive mask of source lines 95-97: 0 at each allowed index,
-inf everywhere else. -/
def maskList (n : Nat) (vals : List Nat) : List FVal :=
  (List.range n).map (fun i => if i ∈ vals then FVal.fin 0 else FVal.ninf)

/-- `masked_logits = action_logits + mask` (source line 101). -/
def addMask (n : Nat) (vals : List Nat) (logits : List FVal) : List FVal :=
  List.zipWith FVal.add logits (maskList n vals)

/-- Max reduction over a tensor, as used inside the softmax. -/
def listMax : List FVal → FVal
  | [] => FVal.ninf
  | x :: xs => xs.foldl FVal.max2 x

/-- `torch.softmax` on a vector possibly containing non-finite entries:
subtract the max, exponentiate, normalize.  The finite exponential is the
abstract parameter `expf`. -/
def softmaxF (expf : ℚ → ℚ) (xs : List FVal) : List FVal :=
  if xs.isEmpty then []
  else
    let m := listMax xs
    let es := xs.map (fun x => FVal.expv expf (FVal.sub x m))
    let s := es.foldl FVal.add (FVal.fin 0)
    es.map (fun e => FVal.div e s)

/-- The argument validation performed by `torch.distributions.Categorical`:
the probability vector must be entrywise finite and nonnegative and sum
to 1 (exactly, in the rational model). -/
def categoricalOK (probs : List FVal) : Prop :=
  (∀ p ∈ probs, p.isFin = true ∧ 0 ≤ p.toQ) ∧ (probs.map FVal.toQ).sum = 1

instance (probs : List FVal) : Decidable (categoricalOK probs) := by
  unfold categoricalOK
  infer_instance

/-- The masked categorical probability vector built by `Player.action`
(source lines 95-108): add the -inf mask to the logits and apply softmax. -/
def maskedDist (expf : ℚ → ℚ) (n : Nat) (vals : List Nat)
    (logits : List FVal) : List FVal :=
  softmaxF expf (addMask n vals logits)

/-- The local `action_logits` of `Player.action` (source line 92): the
network forward pass applied to the sanitized observation. -/
def actionLogits (model : List ℚ → List FVal) (observation : List FVal) : List FVal :=
  model ((sanitize observation).map FVal.toQ)

/-- The local `probs` of `Player.action` (source lines 95-108): the masked
categorical probability vector over the allowed action indices. -/
def actionProbs (expf : ℚ → ℚ) (n : Nat) (model : List ℚ → List FVal)
    (action_space : List EnvId) (observation : List FVal) : List FVal :=
  maskedDist expf n ((allowed_actions action_space).map EnvId.val)
    (actionLogits model observation)

/-- `Player.action` (source lines 57-118).  `n` is `self.action_size`;
`model` is the network forward pass restricted to its logits output
(`self.model` under `no_grad`); `expf`/`logF` stand for the torch
exponential / logarithm; `sample` is the categorical sampling oracle of
`dist.sample()`; `rnd` drives `random.choice`.  Raising is modelled by
`Except.error` with the Python exception message; the local tensor
variables of the source are the definitions `sanitize`, `actionLogits`
and `actionProbs` above. -/
def action (n : Nat) (model : List ℚ → List FVal) (expf : ℚ → ℚ)
    (logF : ℚ → FVal) (sample : List ℚ → Nat) (rnd : Nat)
    (action_space : List EnvId) (observation : List FVal) :
    Except String (Nat × FVal) :=
  if (allowed_actions action_space).isEmpty then
    .ok (random_choice n rnd, FVal.fin 0)
  else if (sanitize observation).any FVal.isNan then
    .error "NaN detected in state"
  else if (actionLogits model observation).any FVal.isNan then
    .error "NaN detected in action_logits"
  else if ¬ categoricalOK (actionProbs expf n model action_space observation) then
    .error "ValueError: Expected parameter probs of distribution Categorical to satisfy the constraint Simplex"
  else
    let pq := (actionProbs expf n model action_space observation).map FVal.toQ
    .ok (sample pq, logF (pq.getD (sample pq) 0))

/-- One iteration of the backward GAE loop body (source lines 136-139),
acting on the state `(gae, next_value, advantages)`. -/
def gaeStep (gamma : ℚ) (rewards dones values : List ℚ) (t : Nat)
    (s : ℚ × ℚ × List ℚ) : ℚ × ℚ × List ℚ :=
  let delta := rewards.getD t 0 + gamma * s.2.1 * (1 - dones.getD t 0) - values.getD t 0
  let gae := delta + gamma * (95 / 100) * s.1 * (1 - dones.getD t 0)
  (gae, values.getD t 0, gae :: s.2.2)

/-- `for t in reversed(range(len(self.rewards)))` (source line 135): process
indices `t-1, t-2, ..., 0`, threading the loop state. -/
def gaeLoop (gamma : ℚ) (rewards dones values : List ℚ) :
    Nat → ℚ × ℚ × List ℚ → ℚ × ℚ × List ℚ
  | 0, s => s
  | t + 1, s => gaeLoop gamma rewards dones values t (gaeStep gamma rewards dones values t s)

/-- `Player.compute_returns_and_advantages` (source lines 128-141), with
`self.gamma`, `self.rewards`, `self.dones` passed explicitly.  Returns the
pair `(returns, advantages)`. -/
def compute_returns_and_advantages (gamma : ℚ) (rewards dones values : List ℚ) :
    List ℚ × List ℚ :=
  let final := gaeLoop gamma rewards dones values rewards.length (0, 0, [])
  let advantages := final.2.2
  let returns := List.zipWith (fun adv val => adv + val) advantages values
  (returns, advantages)

/-- Closed form of the GAE loop value: `advA γ r d v k` is the value of
`gae` after the loop has processed the `k` highest indices, i.e. the
advantage recorded at index `r.length - k`. -/
def advA (gamma : ℚ) (rewards dones values : List ℚ) : Nat → ℚ
  | 0 => 0
  | k + 1 =>
      let t := rewards.length - (k + 1)
      (rewards.getD t 0 + gamma * values.getD (t + 1) 0 * (1 - dones.getD t 0)
          - values.getD t 0)
        + gamma * (95 / 100) * advA gamma rewards dones values k * (1 - dones.getD t 0)

/-- The agent state (`Player.__init__`, source lines 37-55): the fixed
hyperparameters, the network parameters (an opaque-to-the-claims list of
rationals owned by the agent), and the five parallel trajectory arrays. -/
structure Player where
  state_size : Nat
  action_size : Nat
  gamma : ℚ
  clip_epsilon : ℚ
  entropy_coeff : ℚ
  critic_coeff : ℚ
  params : List ℚ
  states : List (List FVal)
  actions : List Nat
  log_probs : List FVal
  rewards : List ℚ
  dones : List ℚ
deriving DecidableEq, Repr

/-- `Player.__init__` (source lines 37-55): hyperparameters are stored and
the five trajectory arrays start empty. -/
def Player.init (state_size action_size : Nat) (gamma clip_epsilon entropy_coeff critic_coeff : ℚ)
    (params : List ℚ) : Player :=
  { state_size := state_size, action_size := action_size, gamma := gamma,
    clip_epsilon := clip_epsilon, entropy_coeff := entropy_coeff,
    critic_coeff := critic_coeff, params := params,
    states := [], actions := [], log_probs := [], rewards := [], dones := [] }

/-- `Player.store_transition` (source lines 120-126): append one transition
to each of the five parallel arrays. -/
def Player.store_transition (p : Player) (state : List FVal) (a : Nat)
    (log_prob : FVal) (reward : ℚ) (done : ℚ) : Player :=
  { p with
    states := p.states ++ [state], actions := p.actions ++ [a],
    log_probs := p.log_probs ++ [log_prob], rewards := p.rewards ++ [reward],
    dones := p.dones ++ [done] }

/-- The local `states` tensor of `Player.learn` after sanitization
(source lines 145, 149). -/
def learnStates (p : Player) : List (List FVal) := p.states.map sanitize

/-- The local `(action_logits, values)` of `Player.learn` (source line 154):
the batched network forward pass on the sanitized stored states. -/
def learnFwd (p : Player) (model : List (List ℚ) → List (List FVal) × List ℚ) :
    List (List FVal) × List ℚ :=
  model ((learnStates p).map (fun row => row.map FVal.toQ))

/-- The per-step probability rows of the `Categorical` distribution built in
`Player.learn` (source line 157). -/
def learnProbsRows (p : Player) (model : List (List ℚ) → List (List FVal) × List ℚ)
    (expf : ℚ → ℚ) : List (List FVal) :=
  (learnFwd p model).1.map (softmaxF expf)

/-- The recomputed log-probabilities of the stored actions
(source line 158). -/
def learnNewLogProbs (p : Player) (model : List (List ℚ) → List (List FVal) × List ℚ)
    (expf : ℚ → ℚ) (logF : ℚ → FVal) : List FVal :=
  ((learnProbsRows p model expf).zip p.actions).map
    (fun pa => logF ((pa.1.map FVal.toQ).getD pa.2 0))

/-- The policy ratios `exp(log_probs - old_log_probs)` (source line 170). -/
def learnRatios (p : Player) (model : List (List ℚ) → List (List FVal) × List ℚ)
    (expf : ℚ → ℚ) (logF : ℚ → FVal) : List FVal :=
  ((learnNewLogProbs p model expf logF).zip p.log_probs).map
    (fun x => FVal.expv expf (FVal.sub x.1 x.2))

/-- `Player.learn` (source lines 143-193).  `model` is the batched network
forward pass (logit rows and value estimates); `expf`/`logF` stand for the
torch exponential / logarithm; `optStep` stands for
`loss.backward(); optimizer.step()`, consuming the loss ingredients
(returns/advantages and ratios) and producing the updated parameters.
`torch.stack` on the empty `log_probs` list raises, which is the first
statement that can fail (line 147); the remaining `Except.error` branches
carry the Python exception messages in source order; the local tensor
variables of the source are the `learn*` definitions above. -/
def Player.learn (p : Player) (model : List (List ℚ) → List (List FVal) × List ℚ)
    (expf : ℚ → ℚ) (logF : ℚ → FVal)
    (optStep : List ℚ → List ℚ × List ℚ → List FVal → List ℚ) :
    Except String Player :=
  if p.log_probs.isEmpty then .error "stack expects a non-empty TensorList"
  else if (learnStates p).any (fun row => row.any FVal.isNan) then
    .error "NaN detected in states in learn"
  else if (learnFwd p model).1.any (fun row => row.any FVal.isNan) then
    .error "NaN detected in action_logits in learn"
  else if ¬ (∀ row ∈ learnProbsRows p model expf, categoricalOK row) then
    .error "ValueError: Expected parameter probs of distribution Categorical to satisfy the constraint Simplex"
  else if (learnRatios p model expf logF).any FVal.isNan then
    .error "NaN detected in ratios_temp"
  else
    .ok { p with
          params := optStep p.params
            (compute_returns_and_advantages p.gamma p.rewards p.dones (learnFwd p model).2)
            (learnRatios p model expf logF),
          states := [], actions := [], log_probs := [], rewards := [],
          dones := [] }

/-! ### Helper lemmas -/

lemma getD_map_range {α : Type} (d : α) :
    ∀ (n i : Nat) (f : Nat → α), i < n → ((List.range n).map f).getD i d = f i
  | 0, i, _, h => absurd h (Nat.not_lt_zero i)
  | n + 1, 0, f, _ => by
      rw [List.range_succ_eq_map]
      simp
  | n + 1, i + 1, f, h => by
      rw [List.range_succ_eq_map]
      simp only [List.map_cons, List.map_map, List.getD_cons_succ]
      exact getD_map_range d n i (f ∘ Nat.succ) (by omega)

lemma getD_zipWith_add :
    ∀ (as bs : List ℚ) (t : Nat), t < as.length → t < bs.length →
      (List.zipWith (fun a b => a + b) as bs).getD t 0 = as.getD t 0 + bs.getD t 0
  | [], _, t, h, _ => absurd h (Nat.not_lt_zero t)
  | _ :: _, [], t, _, h => absurd h (Nat.not_lt_zero t)
  | a :: as, b :: bs, 0, _, _ => by simp
  | a :: as, b :: bs, t + 1, h1, h2 => by
      simp only [List.zipWith_cons_cons, List.getD_cons_succ]
      exact getD_zipWith_add as bs t (by simpa using h1) (by simpa using h2)

lemma gaeLoop_eq (gamma : ℚ) (r d v : List ℚ) :
    ∀ t, t ≤ r.length → ∀ acc : List ℚ,
      gaeLoop gamma r d v t (advA gamma r d v (r.length - t), v.getD t 0, acc)
        = (advA gamma r d v r.length, v.getD 0 0,
            ((List.range t).map fun i => advA gamma r d v (r.length - i)) ++ acc) := by
  intro t
  induction t with
  | zero =>
      intro _ acc
      simp [gaeLoop]
  | succ t ih =>
      intro ht acc
      have ht' : t ≤ r.length := by omega
      have hTt : r.length - t = (r.length - (t + 1)) + 1 := by omega
      have hidx : r.length - ((r.length - (t + 1)) + 1) = t := by omega
      have hstep : gaeStep gamma r d v t
          (advA gamma r d v (r.length - (t + 1)), v.getD (t + 1) 0, acc)
            = (advA gamma r d v (r.length - t), v.getD t 0,
                advA gamma r d v (r.length - t) :: acc) := by
        rw [hTt]
        simp only [gaeStep, advA, hidx]
      rw [gaeLoop, hstep, ih ht' (advA gamma r d v (r.length - t) :: acc)]
      rw [List.range_succ, List.map_append]
      simp [hTt, hidx]

lemma advantages_eq (gamma : ℚ) (r d v : List ℚ) (hv : v.length = r.length) :
    (compute_returns_and_advantages gamma r d v).2
      = (List.range r.length).map fun i => advA gamma r d v (r.length - i) := by
  have h0 : v.getD r.length 0 = 0 := by
    apply List.getD_eq_default
    omega
  have := gaeLoop_eq gamma r d v r.length (le_refl _) []
  rw [Nat.sub_self] at this
  rw [show advA gamma r d v 0 = 0 from rfl, h0] at this
  unfold compute_returns_and_advantages
  rw [this]
  simp

lemma advantages_getD (gamma : ℚ) (r d v : List ℚ) (hv : v.length = r.length)
    (t : Nat) (ht : t ≤ r.length) :
    (compute_returns_and_advantages gamma r d v).2.getD t 0
      = advA gamma r d v (r.length - t) := by
  rcases Nat.lt_or_ge t r.length with h | h
  · rw [advantages_eq gamma r d v hv, getD_map_range _ _ _ _ h]
  · have hT : t = r.length := by omega
    have hlen : (compute_returns_and_advantages gamma r d v).2.length = r.length := by
      rw [advantages_eq gamma r d v hv]
      simp
    rw [List.getD_eq_default _ _ (by omega), hT, Nat.sub_self]
    rfl

lemma isNan_nan_to_num (x : FVal) : (FVal.nan_to_num x).isNan = false := by
  cases x <;> rfl

lemma sanitize_any_isNan (obs : List FVal) :
    (sanitize obs).any FVal.isNan = false := by
  induction obs with
  | nil => rfl
  | cons x xs ih =>
      simp only [sanitize, List.map_cons, List.any_cons, isNan_nan_to_num,
        Bool.false_or]
      exact ih

lemma sanitize_rows_any_isNan (rows : List (List FVal)) :
    (rows.map sanitize).any (fun row => row.any FVal.isNan) = false := by
  induction rows with
  | nil => rfl
  | cons x xs ih =>
      simp only [List.map_cons, List.any_cons, sanitize_any_isNan, Bool.false_or]
      exact ih

/-! Path lemmas for `action`: one per branch, driven by the branch
conditions. -/

lemma action_empty (n : Nat) (model : List ℚ → List FVal) (expf : ℚ → ℚ)
    (logF : ℚ → FVal) (sample : List ℚ → Nat) (rnd : Nat)
    (space : List EnvId) (obs : List FVal)
    (h : (allowed_actions space).isEmpty = true) :
    action n model expf logF sample rnd space obs
      = .ok (random_choice n rnd, FVal.fin 0) := by
  simp only [action, h, if_true]

lemma action_logits_nan (n : Nat) (model : List ℚ → List FVal) (expf : ℚ → ℚ)
    (logF : ℚ → FVal) (sample : List ℚ → Nat) (rnd : Nat)
    (space : List EnvId) (obs : List FVal)
    (h1 : (allowed_actions space).isEmpty = false)
    (h2 : (actionLogits model obs).any FVal.isNan = true) :
    action n model expf logF sample rnd space obs
      = .error "NaN detected in action_logits" := by
  simp only [action, h1, h2, sanitize_any_isNan, Bool.false_eq_true, if_false, if_true]

lemma action_validate_fail (n : Nat) (model : List ℚ → List FVal) (expf : ℚ → ℚ)
    (logF : ℚ → FVal) (sample : List ℚ → Nat) (rnd : Nat)
    (space : List EnvId) (obs : List FVal)
    (h1 : (allowed_actions space).isEmpty = false)
    (h2 : (actionLogits model obs).any FVal.isNan = false)
    (h3 : ¬ categoricalOK (actionProbs expf n model space obs)) :
    action n model expf logF sample rnd space obs
      = .error "ValueError: Expected parameter probs of distribution Categorical to satisfy the constraint Simplex" := by
  simp only [action, h1, h2, sanitize_any_isNan, Bool.false_eq_true, if_false,
    h3, not_false_eq_true, if_true]

lemma action_ok (n : Nat) (model : List ℚ → List FVal) (expf : ℚ → ℚ)
    (logF : ℚ → FVal) (sample : List ℚ → Nat) (rnd : Nat)
    (space : List EnvId) (obs : List FVal)
    (h1 : (allowed_actions space).isEmpty = false)
    (h2 : (actionLogits model obs).any FVal.isNan = false)
    (h3 : categoricalOK (actionProbs expf n model space obs)) :
    action n model expf logF sample rnd space obs
      = .ok (sample ((actionProbs expf n model space obs).map FVal.toQ),
             logF (((actionProbs expf n model space obs).map FVal.toQ).getD
                (sample ((actionProbs expf n model space obs).map FVal.toQ)) 0)) := by
  simp only [action, h1, h2, sanitize_any_isNan, Bool.false_eq_true, if_false,
    h3, not_true_eq_false, if_true]

/-! Path lemmas for `Player.learn`. -/

lemma learn_empty (p : Player) (model : List (List ℚ) → List (List FVal) × List ℚ)
    (expf : ℚ → ℚ) (logF : ℚ → FVal)
    (optStep : List ℚ → List ℚ × List ℚ → List FVal → List ℚ)
    (h : p.log_probs.isEmpty = true) :
    p.learn model expf logF optStep = .error "stack expects a non-empty TensorList" := by
  simp only [Player.learn, h, if_true]

lemma learn_logits_nan (p : Player) (model : List (List ℚ) → List (List FVal) × List ℚ)
    (expf : ℚ → ℚ) (logF : ℚ → FVal)
    (optStep : List ℚ → List ℚ × List ℚ → List FVal → List ℚ)
    (h1 : p.log_probs.isEmpty = false)
    (h2 : (learnFwd p model).1.any (fun row => row.any FVal.isNan) = true) :
    p.learn model expf logF optStep = .error "NaN detected in action_logits in learn" := by
  simp only [Player.learn, learnStates, h1, h2, sanitize_rows_any_isNan,
    Bool.false_eq_true, if_false, if_true]

lemma learn_ratios_nan (p : Player) (model : List (List ℚ) → List (List FVal) × List ℚ)
    (expf : ℚ → ℚ) (logF : ℚ → FVal)
    (optStep : List ℚ → List ℚ × List ℚ → List FVal → List ℚ)
    (h1 : p.log_probs.isEmpty = false)
    (h2 : (learnFwd p model).1.any (fun row => row.any FVal.isNan) = false)
    (h3 : ∀ row ∈ learnProbsRows p model expf, categoricalOK row)
    (h4 : (learnRatios p model expf logF).any FVal.isNan = true) :
    p.learn model expf logF optStep = .error "NaN detected in ratios_temp" := by
  simp only [Player.learn, learnStates, h1, h2, sanitize_rows_any_isNan,
    Bool.false_eq_true, if_false, h3, not_true_eq_false, if_true, h4]
  rw [if_neg (not_not_intro h3)]

lemma learn_ok (p : Player) (model : List (List ℚ) → List (List FVal) × List ℚ)
    (expf : ℚ → ℚ) (logF : ℚ → FVal)
    (optStep : List ℚ → List ℚ × List ℚ → List FVal → List ℚ)
    (h1 : p.log_probs.isEmpty = false)
    (h2 : (learnFwd p model).1.any (fun row => row.any FVal.isNan) = false)
    (h3 : ∀ row ∈ learnProbsRows p model expf, categoricalOK row)
    (h4 : (learnRatios p model expf logF).any FVal.isNan = false) :
    p.learn model expf logF optStep
      = .ok { p with
              params := optStep p.params
                (compute_returns_and_advantages p.gamma p.rewards p.dones
                  (learnFwd p model).2)
                (learnRatios p model expf logF),
              states := [], actions := [], log_probs := [], rewards := [],
              dones := [] } := by
  simp only [Player.learn, learnStates, h1, h2, sanitize_rows_any_isNan,
    Bool.false_eq_true, if_false, h3, not_true_eq_false, if_true, h4]
  rw [if_neg (not_not_intro h3)]

/-! ### C1 -/

/-- C1: for rewards, dones and values lists of equal length `T`,
`compute_returns_and_advantages` realizes the backward GAE recursion of the
spec.  Writing `adv` and `ret` for the produced advantage and return lists
(both of length `T`), for every `t < T` the advantage satisfies
`adv_t = delta_t + gamma * 0.95 * adv_{t+1} * (1 - done_t)` with
`delta_t = reward_t + gamma * value_{t+1} * (1 - done_t) - value_t`, where
the `getD` defaults realize the initializations `gae = 0`, `next_value = 0`
at `t = T - 1` (the out-of-range reads `value_T` and `adv_T` are 0); and
`ret_t = adv_t + value_t`. -/
theorem c1_gae_recursion (gamma : ℚ) (r d v : List ℚ)
    (_hd : d.length = r.length) (hv : v.length = r.length)
    (t : Nat) (ht : t < r.length) :
    (compute_returns_and_advantages gamma r d v).2.length = r.length
  ∧ (compute_returns_and_advantages gamma r d v).1.length = r.length
  ∧ (compute_returns_and_advantages gamma r d v).2.getD t 0
      = (r.getD t 0 + gamma * v.getD (t + 1) 0 * (1 - d.getD t 0) - v.getD t 0)
        + gamma * (95 / 100)
          * (compute_returns_and_advantages gamma r d v).2.getD (t + 1) 0
          * (1 - d.getD t 0)
  ∧ (compute_returns_and_advantages gamma r d v).1.getD t 0
      = (compute_returns_and_advantages gamma r d v).2.getD t 0 + v.getD t 0 := by
  have hlen : (compute_returns_and_advantages gamma r d v).2.length = r.length := by
    rw [advantages_eq gamma r d v hv]
    simp
  have hret : (compute_returns_and_advantages gamma r d v).1
      = List.zipWith (fun adv val => adv + val)
          (compute_returns_and_advantages gamma r d v).2 v := rfl
  have hretlen : (compute_returns_and_advantages gamma r d v).1.length = r.length := by
    rw [hret, List.length_zipWith, hlen, hv]
    simp
  refine ⟨hlen, hretlen, ?_, ?_⟩
  · rw [advantages_getD gamma r d v hv t (by omega),
        advantages_getD gamma r d v hv (t + 1) (by omega)]
    have hTt : r.length - t = (r.length - (t + 1)) + 1 := by omega
    have hidx : r.length - ((r.length - (t + 1)) + 1) = t := by omega
    rw [hTt]
    simp only [advA, hidx]
  · rw [hret, getD_zipWith_add _ _ t (by rw [hlen]; exact ht) (by rw [hv]; exact ht)]

/-- Witness for C1 at `gamma = 0.99`, the spec's own worked scenario
`rewards = [1, 0, -1]`, `dones = [0, 0, 1]`, `values = [0.5, 0.3, 0.1]`,
at index `t = 1`. -/
theorem c1_gae_recursion_witness :
    (compute_returns_and_advantages (99/100) [1, 0, -1] [0, 0, 1] [1/2, 3/10, 1/10]).2.length = 3
  ∧ (compute_returns_and_advantages (99/100) [1, 0, -1] [0, 0, 1] [1/2, 3/10, 1/10]).1.length = 3
  ∧ (compute_returns_and_advantages (99/100) [1, 0, -1] [0, 0, 1] [1/2, 3/10, 1/10]).2.getD 1 0
      = (([1, 0, -1] : List ℚ).getD 1 0
          + (99/100) * ([1/2, 3/10, 1/10] : List ℚ).getD 2 0 * (1 - ([0, 0, 1] : List ℚ).getD 1 0)
          - ([1/2, 3/10, 1/10] : List ℚ).getD 1 0)
        + (99/100) * (95 / 100)
          * (compute_returns_and_advantages (99/100) [1, 0, -1] [0, 0, 1] [1/2, 3/10, 1/10]).2.getD 2 0
          * (1 - ([0, 0, 1] : List ℚ).getD 1 0)
  ∧ (compute_returns_and_advantages (99/100) [1, 0, -1] [0, 0, 1] [1/2, 3/10, 1/10]).1.getD 1 0
      = (compute_returns_and_advantages (99/100) [1, 0, -1] [0, 0, 1] [1/2, 3/10, 1/10]).2.getD 1 0
        + ([1/2, 3/10, 1/10] : List ℚ).getD 1 0 := by
  have h3 : ([1, 0, -1] : List ℚ).length = 3 := rfl
  have := c1_gae_recursion (99/100) [1, 0, -1] [0, 0, 1] [1/2, 3/10, 1/10]
    (by decide) (by decide) 1 (by decide)
  rw [h3] at this
  exact this

/-! ### C2: the masked softmax distribution -/

lemma foldl_add_fin : ∀ (L : List ℚ) (a : ℚ),
    (L.map FVal.fin).foldl FVal.add (FVal.fin a) = FVal.fin (a + L.sum)
  | [], a => by simp [FVal.add]
  | q :: L, a => by
      simp only [List.map_cons, List.foldl_cons, FVal.add, foldl_add_fin L (a + q),
        List.sum_cons]
      ring_nf

lemma foldl_max2_fin : ∀ (l : List FVal) (acc : FVal),
    (∀ x ∈ l, x.isFin = true ∨ x = .ninf) →
    (acc.isFin = true ∨ (acc = .ninf ∧ ∃ x ∈ l, x.isFin = true)) →
    ∃ M, l.foldl FVal.max2 acc = .fin M
  | [], acc, _, hacc => by
      rcases hacc with hacc | ⟨_, x, hx, _⟩
      · cases acc with
        | fin a => exact ⟨a, rfl⟩
        | nan => simp [FVal.isFin] at hacc
        | inf => simp [FVal.isFin] at hacc
        | ninf => simp [FVal.isFin] at hacc
      · simp at hx
  | y :: ys, acc, hall, hacc => by
      rcases hacc with hacc | ⟨rfl, x, hx, hxfin⟩
      · cases acc with
        | fin a =>
            rcases hall y (by simp) with hy | rfl
            · cases y with
              | fin b =>
                  exact foldl_max2_fin ys (.fin (max a b))
                    (fun x hx => hall x (by simp [hx])) (Or.inl rfl)
              | nan => simp [FVal.isFin] at hy
              | inf => simp [FVal.isFin] at hy
              | ninf => simp [FVal.isFin] at hy
            · exact foldl_max2_fin ys (.fin a)
                (fun x hx => hall x (by simp [hx])) (Or.inl rfl)
        | nan => simp [FVal.isFin] at hacc
        | inf => simp [FVal.isFin] at hacc
        | ninf => simp [FVal.isFin] at hacc
      · rcases List.mem_cons.mp hx with rfl | hxys
        · cases x with
          | fin b =>
              exact foldl_max2_fin ys (.fin b)
                (fun x hx => hall x (by simp [hx])) (Or.inl rfl)
          | nan => simp [FVal.isFin] at hxfin
          | inf => simp [FVal.isFin] at hxfin
          | ninf => simp [FVal.isFin] at hxfin
        · rcases hall y (by simp) with hy | rfl
          · cases y with
            | fin b =>
                exact foldl_max2_fin ys (.fin b)
                  (fun x hx => hall x (by simp [hx])) (Or.inl rfl)
            | nan => simp [FVal.isFin] at hy
            | inf => simp [FVal.isFin] at hy
            | ninf => simp [FVal.isFin] at hy
          · exact foldl_max2_fin ys .ninf
              (fun x hx => hall x (by simp [hx])) (Or.inr ⟨rfl, x, hxys, hxfin⟩)

lemma listMax_fin (l : List FVal) (hall : ∀ x ∈ l, x.isFin = true ∨ x = .ninf)
    (hex : ∃ x ∈ l, x.isFin = true) : ∃ M, listMax l = .fin M := by
  cases l with
  | nil => simp at hex
  | cons y ys =>
      show ∃ M, ys.foldl FVal.max2 y = FVal.fin M
      rcases hall y (by simp) with hy | rfl
      · cases y with
        | fin a =>
            exact foldl_max2_fin ys (.fin a)
              (fun x hx => hall x (by simp [hx])) (Or.inl rfl)
        | nan => simp [FVal.isFin] at hy
        | inf => simp [FVal.isFin] at hy
        | ninf => simp [FVal.isFin] at hy
      · obtain ⟨x, hx, hxfin⟩ := hex
        rcases List.mem_cons.mp hx with rfl | hxys
        · simp [FVal.isFin] at hxfin
        · exact foldl_max2_fin ys .ninf
            (fun x hx => hall x (by simp [hx])) (Or.inr ⟨rfl, x, hxys, hxfin⟩)

lemma masked_eq (n : Nat) (vals : List Nat) (lq : List ℚ) (hlen : lq.length = n) :
    addMask n vals (lq.map FVal.fin)
      = (List.range n).map
          (fun i => if i ∈ vals then FVal.fin (lq.getD i 0) else FVal.ninf) := by
  apply List.ext_getElem
  · simp [addMask, maskList, hlen]
  · intro i h1 h2
    have hi : i < n := by simpa using h2
    have hilq : i < lq.length := by omega
    simp only [addMask, maskList, List.getElem_zipWith, List.getElem_map,
      List.getElem_range]
    rw [List.getD_eq_getElem lq 0 hilq]
    by_cases hmem : i ∈ vals
    · simp [hmem, FVal.add]
    · simp [hmem, FVal.add]

lemma sum_map_div (S : ℚ) : ∀ L : List ℚ, (L.map (fun q => q / S)).sum = L.sum / S
  | [] => by simp
  | q :: L => by
      simp only [List.map_cons, List.sum_cons, sum_map_div S L]
      ring

/-- Normal form of the masked softmax on all-finite logits: writing `M` for
the max of the masked vector and `w i` for the unnormalized weight of index
`i` (a positive `expf` value at allowed indices, 0 elsewhere), the
distribution is `w i / S` with `S` the positive total weight. -/
lemma maskedDist_spec (expf : ℚ → ℚ) (hexp : ∀ q, 0 < expf q) (n : Nat)
    (vals : List Nat) (lq : List ℚ) (hlen : lq.length = n)
    (i0 : Nat) (hi0 : i0 ∈ vals) (hi0n : i0 < n) :
    ∃ M S : ℚ, 0 < S
      ∧ S = ((List.range n).map
              (fun i => if i ∈ vals then expf (lq.getD i 0 - M) else 0)).sum
      ∧ maskedDist expf n vals (lq.map FVal.fin)
          = (List.range n).map
              (fun i => FVal.fin ((if i ∈ vals then expf (lq.getD i 0 - M) else 0) / S)) := by
  have hmask := masked_eq n vals lq hlen
  have hne : ((List.range n).map
      (fun i => if i ∈ vals then FVal.fin (lq.getD i 0) else FVal.ninf)).isEmpty = false := by
    rw [List.isEmpty_eq_false_iff_exists_mem]
    exact ⟨if i0 ∈ vals then FVal.fin (lq.getD i0 0) else FVal.ninf,
      List.mem_map_of_mem _ (List.mem_range.mpr hi0n)⟩
  obtain ⟨M, hM⟩ := listMax_fin
    ((List.range n).map (fun i => if i ∈ vals then FVal.fin (lq.getD i 0) else FVal.ninf))
    (by
      intro x hx
      obtain ⟨i, _, rfl⟩ := List.mem_map.mp hx
      by_cases hmem : i ∈ vals
      · simp [hmem, FVal.isFin]
      · simp [hmem])
    ⟨if i0 ∈ vals then FVal.fin (lq.getD i0 0) else FVal.ninf,
      List.mem_map_of_mem _ (List.mem_range.mpr hi0n), by simp [hi0, FVal.isFin]⟩
  set w : Nat → ℚ := fun i => if i ∈ vals then expf (lq.getD i 0 - M) else 0 with hw
  set S : ℚ := ((List.range n).map w).sum with hS
  have hes : ((List.range n).map
        (fun i => if i ∈ vals then FVal.fin (lq.getD i 0) else FVal.ninf)).map
          (fun x => FVal.expv expf (FVal.sub x (FVal.fin M)))
      = ((List.range n).map w).map FVal.fin := by
    rw [List.map_map, List.map_map]
    apply List.map_congr_left
    intro i _
    by_cases hmem : i ∈ vals
    · simp [hmem, hw, FVal.sub, FVal.expv]
    · simp [hmem, hw, FVal.sub, FVal.expv]
  have hSpos : 0 < S := by
    have hmem0 : w i0 ∈ (List.range n).map w :=
      List.mem_map_of_mem _ (List.mem_range.mpr hi0n)
    have hle : w i0 ≤ S := by
      apply List.single_le_sum _ _ hmem0
      intro q hq
      obtain ⟨i, _, rfl⟩ := List.mem_map.mp hq
      by_cases hmem : i ∈ vals
      · simp only [hw, hmem, if_true]
        exact le_of_lt (hexp _)
      · simp [hw, hmem]
    have : 0 < w i0 := by
      simp only [hw, hi0, if_true]
      exact hexp _
    linarith
  refine ⟨M, S, hSpos, hS, ?_⟩
  unfold maskedDist
  rw [hmask]
  unfold softmaxF
  rw [if_neg (by simp only [hne]; exact Bool.false_ne_true)]
  simp only [hes, hM]
  rw [foldl_add_fin, zero_add, ← hS]
  rw [List.map_map, List.map_map]
  apply List.map_congr_left
  intro i _
  simp only [Function.comp_apply, FVal.div]
  rw [if_neg (by linarith)]

/-- C2: at every decision point whose allowed action set is non-empty, the
masked categorical distribution built by `action` over the network's
(finite) logits assigns probability exactly 0 to every index outside the
allowed set, and the probabilities sum to exactly 1.  `expf` is any
strictly positive stand-in for the torch exponential. -/
theorem c2_masked_distribution (expf : ℚ → ℚ) (hexp : ∀ q, 0 < expf q)
    (n : Nat) (space : List EnvId) (lq : List ℚ) (hlen : lq.length = n)
    (hne : allowed_actions space ≠ [])
    (hbound : ∀ e ∈ allowed_actions space, e.val < n)
    (i : Nat) (hi : i < n)
    (hni : i ∉ (allowed_actions space).map EnvId.val) :
    (maskedDist expf n ((allowed_actions space).map EnvId.val)
        (lq.map FVal.fin)).getD i FVal.nan = FVal.fin 0
  ∧ ((maskedDist expf n ((allowed_actions space).map EnvId.val)
        (lq.map FVal.fin)).map FVal.toQ).sum = 1 := by
  obtain ⟨e, he⟩ := List.exists_mem_of_ne_nil _ hne
  obtain ⟨M, S, hSpos, hSsum, hdist⟩ := maskedDist_spec expf hexp n
    ((allowed_actions space).map EnvId.val) lq hlen e.val
    (List.mem_map_of_mem _ he) (hbound e he)
  constructor
  · rw [hdist, getD_map_range _ _ _ _ hi]
    rw [if_neg hni, zero_div]
  · rw [hdist, List.map_map]
    have : (FVal.toQ ∘ fun i =>
        FVal.fin ((if i ∈ (allowed_actions space).map EnvId.val
          then expf (lq.getD i 0 - M) else 0) / S))
      = fun i => (if i ∈ (allowed_actions space).map EnvId.val
          then expf (lq.getD i 0 - M) else 0) / S := rfl
    rw [this, List.map_eq_map_iff.mpr (fun x _ => rfl)]
    rw [show (List.map (fun i => (if i ∈ (allowed_actions space).map EnvId.val
        then expf (lq.getD i 0 - M) else 0) / S) (List.range n))
      = List.map ((fun q => q / S) ∘ (fun i => if i ∈ (allowed_actions space).map EnvId.val
          then expf (lq.getD i 0 - M) else 0)) (List.range n) from rfl]
    rw [← List.map_map, sum_map_div, ← hSsum]
    exact div_self (ne_of_gt hSpos)

/-- Witness for C2: `action_size = 6`, legal set `{FOLD, CALL, SHOWDOWN}`
(allowed indices 0 and 2 after filtering), logits `[1, 2, 3, 4, 5, 6]`,
`expf = 1`, checked at the disallowed index `i = 1`. -/
theorem c2_masked_distribution_witness :
    (maskedDist (fun _ => 1) 6
        ((allowed_actions [.act .FOLD, .act .CALL, .stage .SHOWDOWN]).map EnvId.val)
        (([1, 2, 3, 4, 5, 6] : List ℚ).map FVal.fin)).getD 1 FVal.nan = FVal.fin 0
  ∧ ((maskedDist (fun _ => 1) 6
        ((allowed_actions [.act .FOLD, .act .CALL, .stage .SHOWDOWN]).map EnvId.val)
        (([1, 2, 3, 4, 5, 6] : List ℚ).map FVal.fin)).map FVal.toQ).sum = 1 :=
  c2_masked_distribution (fun _ => 1) (fun _ => one_pos) 6
    [.act .FOLD, .act .CALL, .stage .SHOWDOWN] [1, 2, 3, 4, 5, 6]
    (by decide) (by decide) (by decide) 1 (by decide) (by decide)

/-! ### C3 -/

/-- C3: when the allowed action set (playable domain intersected with the
provided `action_space`, showdown removed) is empty, `action` returns a
uniformly random index in `[0, action_size)` (the randomness oracle `rnd`
reduced mod `n`) together with `log_prob = 0.0`, and does not raise. -/
theorem c3_empty_allowed_fallback (n : Nat) (model : List ℚ → List FVal)
    (expf : ℚ → ℚ) (logF : ℚ → FVal) (sample : List ℚ → Nat) (rnd : Nat)
    (space : List EnvId) (obs : List FVal)
    (hempty : allowed_actions space = []) (hn : 0 < n) :
    action n model expf logF sample rnd space obs
      = .ok (random_choice n rnd, FVal.fin 0)
  ∧ random_choice n rnd < n :=
  ⟨action_empty n model expf logF sample rnd space obs (by rw [hempty]; rfl),
   Nat.mod_lt rnd hn⟩

/-- Witness for C3: `action_size = 3`, `action_space = {SHOWDOWN}` (empty
allowed set), randomness oracle `rnd = 7`. -/
theorem c3_empty_allowed_fallback_witness :
    action 3 (fun _ => []) (fun _ => 1) (fun _ => FVal.fin 0) (fun _ => 0) 7
        [.stage .SHOWDOWN] [FVal.nan]
      = .ok (random_choice 3 7, FVal.fin 0)
  ∧ random_choice 3 7 < 3 :=
  c3_empty_allowed_fallback 3 (fun _ => []) (fun _ => 1) (fun _ => FVal.fin 0)
    (fun _ => 0) 7 [.stage .SHOWDOWN] [FVal.nan] (by decide) (by decide)

/-! ### C9 -/

/-- C9: the NaN checks placed immediately after state sanitization are
unreachable: no run of `action` returns the "NaN detected in state" fault
and no run of `learn` returns the "NaN detected in states in learn" fault,
because `nan_to_num` leaves no NaN behind. -/
theorem c9_state_nan_guard_unreachable (n : Nat) (model1 : List ℚ → List FVal)
    (expf : ℚ → ℚ) (logF : ℚ → FVal) (sample : List ℚ → Nat) (rnd : Nat)
    (space : List EnvId) (obs : List FVal)
    (p : Player) (model2 : List (List ℚ) → List (List FVal) × List ℚ)
    (optStep : List ℚ → List ℚ × List ℚ → List FVal → List ℚ) :
    action n model1 expf logF sample rnd space obs ≠ .error "NaN detected in state"
  ∧ p.learn model2 expf logF optStep ≠ .error "NaN detected in states in learn" := by
  constructor
  · simp only [action, sanitize_any_isNan, Bool.false_eq_true, if_false]
    split
    · simp
    · split
      · simp
      · split
        · simp
        · simp
  · simp only [Player.learn, learnStates, sanitize_rows_any_isNan,
      Bool.false_eq_true, if_false]
    split
    · simp
    · split
      · simp
      · split
        · simp
        · split
          · simp
          · simp

/-- Witness for C9 at a concrete configuration (NaN observation and NaN
stored state). -/
theorem c9_state_nan_guard_unreachable_witness :
    action 3 (fun _ => [FVal.nan, FVal.nan, FVal.nan]) (fun _ => 1)
        (fun _ => FVal.fin 0) (fun _ => 0) 0 [.act .FOLD] [FVal.nan]
      ≠ .error "NaN detected in state"
  ∧ Player.learn ⟨1, 3, 99/100, 1/5, 1/1000, 1/2, [], [[FVal.nan]], [0],
        [FVal.fin 0], [0], [1]⟩
      (fun _ => ([[FVal.nan]], [0])) (fun _ => 1) (fun _ => FVal.fin 0)
      (fun pr _ _ => pr)
      ≠ .error "NaN detected in states in learn" :=
  c9_state_nan_guard_unreachable 3 (fun _ => [FVal.nan, FVal.nan, FVal.nan])
    (fun _ => 1) (fun _ => FVal.fin 0) (fun _ => 0) 0 [.act .FOLD] [FVal.nan]
    ⟨1, 3, 99/100, 1/5, 1/1000, 1/2, [], [[FVal.nan]], [0], [FVal.fin 0], [0], [1]⟩
    (fun _ => ([[FVal.nan]], [0])) (fun pr _ _ => pr)

/-! ### C4 -/

/-- C4 counterexample: the guards test `isnan`, not `isfinite`.  With a
network emitting the non-finite logit `-inf` (first entry) and all actions
legal, `action` raises nothing: it runs to completion and returns a
sampled action, falsifying "whenever a non-finite value appears in the
action logits ... the operation fails fast by raising". -/
theorem c4_counterexample :
    (actionLogits
        (fun _ => [FVal.ninf, FVal.fin 0, FVal.fin 0, FVal.fin 0, FVal.fin 0, FVal.fin 0])
        [FVal.fin 0]).any (fun x => !x.isFin) = true
  ∧ action 6
      (fun _ => [FVal.ninf, FVal.fin 0, FVal.fin 0, FVal.fin 0, FVal.fin 0, FVal.fin 0])
      (fun _ => 1) (fun _ => FVal.fin 0) (fun _ => 1) 0
      (this_player_action_space.map EnvId.act) [FVal.fin 0]
      = .ok (1, FVal.fin 0) := by
  have hvals : (allowed_actions (this_player_action_space.map EnvId.act)).map EnvId.val
      = [0, 1, 2, 3, 4, 5] := by decide
  have hr : List.range 6 = [0, 1, 2, 3, 4, 5] := by decide
  have hprobs : actionProbs (fun _ => 1) 6
      (fun _ => [FVal.ninf, FVal.fin 0, FVal.fin 0, FVal.fin 0, FVal.fin 0, FVal.fin 0])
      (this_player_action_space.map EnvId.act) [FVal.fin 0]
      = [FVal.fin 0, FVal.fin (1/5), FVal.fin (1/5), FVal.fin (1/5), FVal.fin (1/5),
          FVal.fin (1/5)] := by
    norm_num [actionProbs, actionLogits, sanitize, FVal.nan_to_num, FVal.toQ,
      maskedDist, addMask, maskList, softmaxF, listMax, FVal.max2, FVal.sub,
      FVal.expv, FVal.add, FVal.div, hr, hvals]
  refine ⟨by decide, ?_⟩
  rw [action_ok 6 _ _ _ _ _ _ _ (by decide) (by decide)
    (by rw [hprobs]; norm_num [categoricalOK, FVal.isFin, FVal.toQ])]

/-- C4 amended: the fail-fast guards fire exactly on NaN.  Whenever a NaN
appears in the action logits (in `action` or in `learn`) or in the policy
ratios, the operation raises immediately with the corresponding fault;
infinite (non-NaN) values are not detected by these guards. -/
theorem c4_nan_guard_amended (n : Nat) (model1 : List ℚ → List FVal)
    (expf : ℚ → ℚ) (logF : ℚ → FVal) (sample : List ℚ → Nat) (rnd : Nat)
    (space1 : List EnvId) (obs : List FVal)
    (p1 p2 : Player) (model2 model3 : List (List ℚ) → List (List FVal) × List ℚ)
    (optStep : List ℚ → List ℚ × List ℚ → List FVal → List ℚ)
    (h1 : (allowed_actions space1).isEmpty = false)
    (h2 : (actionLogits model1 obs).any FVal.isNan = true)
    (h3 : p1.log_probs.isEmpty = false)
    (h4 : (learnFwd p1 model2).1.any (fun row => row.any FVal.isNan) = true)
    (h5 : p2.log_probs.isEmpty = false)
    (h6 : (learnFwd p2 model3).1.any (fun row => row.any FVal.isNan) = false)
    (h7 : ∀ row ∈ learnProbsRows p2 model3 expf, categoricalOK row)
    (h8 : (learnRatios p2 model3 expf logF).any FVal.isNan = true) :
    action n model1 expf logF sample rnd space1 obs
      = .error "NaN detected in action_logits"
  ∧ p1.learn model2 expf logF optStep = .error "NaN detected in action_logits in learn"
  ∧ p2.learn model3 expf logF optStep = .error "NaN detected in ratios_temp" :=
  ⟨action_logits_nan n model1 expf logF sample rnd space1 obs h1 h2,
   learn_logits_nan p1 model2 expf logF optStep h3 h4,
   learn_ratios_nan p2 model3 expf logF optStep h5 h6 h7 h8⟩

/-- Witness for C4 (amended): a NaN logit in `action`, a NaN logit row in
`learn`, and a NaN ratio (from a stored NaN `log_prob`) in `learn`. -/
theorem c4_nan_guard_amended_witness :
    action 6 (fun _ => [FVal.nan]) (fun _ => 1) (fun _ => FVal.fin 0) (fun _ => 1) 0
        [.act .FOLD] [FVal.fin 0]
      = .error "NaN detected in action_logits"
  ∧ Player.learn ⟨1, 6, 99/100, 1/5, 1/1000, 1/2, [], [[FVal.fin 0]], [0],
        [FVal.fin 0], [0], [1]⟩
      (fun _ => ([[FVal.nan]], [0])) (fun _ => 1) (fun _ => FVal.fin 0)
      (fun pr _ _ => pr)
      = .error "NaN detected in action_logits in learn"
  ∧ Player.learn ⟨1, 6, 99/100, 1/5, 1/1000, 1/2, [], [[FVal.fin 0]], [0],
        [FVal.nan], [0], [1]⟩
      (fun _ => ([[FVal.fin 0]], [0])) (fun _ => 1) (fun _ => FVal.fin 0)
      (fun pr _ _ => pr)
      = .error "NaN detected in ratios_temp" := by
  have hrows : learnProbsRows
      ⟨1, 6, 99/100, 1/5, 1/1000, 1/2, [], [[FVal.fin 0]], [0], [FVal.nan], [0], [1]⟩
      (fun _ => ([[FVal.fin 0]], [0])) (fun _ => 1) = [[FVal.fin 1]] := by
    norm_num [learnProbsRows, learnFwd, learnStates, softmaxF, listMax,
      FVal.sub, FVal.expv, FVal.add, FVal.div, sanitize, FVal.nan_to_num, FVal.toQ]
  exact c4_nan_guard_amended 6 (fun _ => [FVal.nan]) (fun _ => 1) (fun _ => FVal.fin 0)
    (fun _ => 1) 0 [.act .FOLD] [FVal.fin 0]
    ⟨1, 6, 99/100, 1/5, 1/1000, 1/2, [], [[FVal.fin 0]], [0], [FVal.fin 0], [0], [1]⟩
    ⟨1, 6, 99/100, 1/5, 1/1000, 1/2, [], [[FVal.fin 0]], [0], [FVal.nan], [0], [1]⟩
    (fun _ => ([[FVal.nan]], [0])) (fun _ => ([[FVal.fin 0]], [0]))
    (fun pr _ _ => pr)
    (by decide) (by decide) (by decide) (by decide) (by decide) (by decide)
    (by
      rw [hrows]
      intro row hrow
      rw [List.mem_singleton] at hrow
      subst hrow
      constructor
      · intro x hx
        rw [List.mem_singleton] at hx
        subst hx
        constructor
        · rfl
        · norm_num [FVal.toQ]
      · norm_num [FVal.toQ])
    (by decide)

/-! ### C7 -/

lemma advA_mc (r d v : List ℚ) (hv : v.length = r.length)
    (hdz : ∀ k, k + 1 < r.length → d.getD k 0 = 0)
    (hdl : d.getD (r.length - 1) 0 = 1) :
    ∀ k, k ≤ r.length →
      advA 1 r d v k
        = ∑ j ∈ Finset.Ico (r.length - k) r.length,
            (95 / 100 : ℚ) ^ (j - (r.length - k))
              * (r.getD j 0 + v.getD (j + 1) 0 - v.getD j 0) := by
  intro k
  induction k with
  | zero =>
      intro _
      rw [Nat.sub_zero]
      simp [advA]
  | succ k ih =>
      intro hk
      have hlt : r.length - (k + 1) < r.length := by omega
      rcases Nat.eq_zero_or_pos k with rfl | hkpos
      · have hv0 : v.getD ((r.length - (0 + 1)) + 1) 0 = 0 := by
          rw [show (r.length - (0 + 1)) + 1 = r.length from by omega]
          exact List.getD_eq_default _ _ (by omega)
        rw [Finset.sum_eq_sum_Ico_succ_bot hlt]
        rw [show (r.length - (0 + 1)) + 1 = r.length from by omega]
        rw [show r.length - (0 + 1) = r.length - 1 from by omega]
        simp only [advA, Finset.Ico_self, Finset.sum_empty, Nat.sub_self, pow_zero, hdl]
        rw [show (r.length - 1) + 1 = r.length from by omega,
          List.getD_eq_default _ _ (show v.length ≤ r.length from by omega)]
        ring
      · have hk' : k ≤ r.length := by omega
        have hd0 : d.getD (r.length - (k + 1)) 0 = 0 := hdz _ (by omega)
        have htk : r.length - k = (r.length - (k + 1)) + 1 := by omega
        have hsum : ∑ j ∈ Finset.Ico ((r.length - (k + 1)) + 1) r.length,
              (95 / 100 : ℚ) ^ (j - (r.length - (k + 1)))
                * (r.getD j 0 + v.getD (j + 1) 0 - v.getD j 0)
            = (95 / 100 : ℚ) * ∑ j ∈ Finset.Ico ((r.length - (k + 1)) + 1) r.length,
                (95 / 100 : ℚ) ^ (j - ((r.length - (k + 1)) + 1))
                  * (r.getD j 0 + v.getD (j + 1) 0 - v.getD j 0) := by
          rw [Finset.mul_sum]
          apply Finset.sum_congr rfl
          intro j hj
          have hj1 : (r.length - (k + 1)) + 1 ≤ j := (Finset.mem_Ico.mp hj).1
          rw [show j - (r.length - (k + 1)) = (j - ((r.length - (k + 1)) + 1)) + 1 from
            by omega, pow_succ]
          ring
        rw [Finset.sum_eq_sum_Ico_succ_bot hlt, hsum]
        simp only [advA, hd0, ih hk', htk, Nat.sub_self, pow_zero]
        ring

/-- C7 counterexample: the claim fails as stated.  With `gamma = 1`,
`rewards = [1, 1]`, `dones = [0, 1]`, `values = [0, 0]`, the advantage at
`t = 0` computed by `compute_returns_and_advantages` is `1.95`, not the
Monte Carlo value `(1 + 1) - 0 = 2`: the GAE decay is hard-coded to `0.95`
in the recursion (`gamma * 0.95 * gae`), so `lambda = 1` is not realizable. -/
theorem c7_counterexample :
    ¬ ((compute_returns_and_advantages 1 [1, 1] [0, 1] [0, 0]).2.getD 0 0
        = ((1 : ℚ) + 1) - 0) := by
  have h : (compute_returns_and_advantages 1 [1, 1] [0, 1] [0, 0]).2.getD 0 0
      = 39 / 20 := by
    norm_num [compute_returns_and_advantages, gaeLoop, gaeStep]
  rw [h]
  norm_num

/-- C7 amended: with `gamma = 1` and all done flags 0 except the last
(`done_last = 1`), the advantage at every index `t` equals the
`lambda = 0.95`-weighted sum of the TD residuals,
`sum over j in [t, T) of 0.95^(j-t) * (reward_j + value_{j+1} - value_j)`
(with `value_T = 0`); it reduces to the Monte Carlo value
`(sum of rewards from t) - value_t` only when the hard-coded decay `0.95`
is replaced by 1. -/
theorem c7_monte_carlo_amended (r d v : List ℚ)
    (_hd : d.length = r.length) (hv : v.length = r.length)
    (hdz : ∀ k, k + 1 < r.length → d.getD k 0 = 0)
    (hdl : d.getD (r.length - 1) 0 = 1)
    (t : Nat) (ht : t < r.length) :
    (compute_returns_and_advantages 1 r d v).2.getD t 0
      = ∑ j ∈ Finset.Ico t r.length,
          (95 / 100 : ℚ) ^ (j - t) * (r.getD j 0 + v.getD (j + 1) 0 - v.getD j 0) := by
  rw [advantages_getD 1 r d v hv t (by omega),
    advA_mc r d v hv hdz hdl (r.length - t) (by omega),
    show r.length - (r.length - t) = t from by omega]

/-- Witness for C7 (amended) at `rewards = [1, 1]`, `dones = [0, 1]`,
`values = [0, 0]`, index `t = 0`. -/
theorem c7_monte_carlo_amended_witness :
    (compute_returns_and_advantages 1 [1, 1] [0, 1] [0, 0]).2.getD 0 0
      = ∑ j ∈ Finset.Ico 0 ([1, 1] : List ℚ).length,
          (95 / 100 : ℚ) ^ (j - 0)
            * (([1, 1] : List ℚ).getD j 0 + ([0, 0] : List ℚ).getD (j + 1) 0
                - ([0, 0] : List ℚ).getD j 0) := by
  exact c7_monte_carlo_amended [1, 1] [0, 1] [0, 0] (by decide) (by decide)
    (fun k hk => by
      have hk0 : k = 0 := by
        simp only [List.length_cons, List.length_nil] at hk
        omega
      subst hk0
      rfl)
    (by decide) 0 (by decide)

/-! ### C5 -/

lemma isFin_nan_to_num (x : FVal) : (FVal.nan_to_num x).isFin = true := by
  cases x <;> rfl

lemma sanitize_all_isFin (obs : List FVal) : (sanitize obs).all FVal.isFin = true := by
  induction obs with
  | nil => rfl
  | cons x xs ih =>
      simp only [sanitize, List.map_cons, List.all_cons, isFin_nan_to_num,
        Bool.true_and]
      exact ih

/-- C5 counterexample: sanitization does not replace every non-finite entry
with 0.  `torch.nan_to_num(·, nan=0.0)` maps `+inf` to the largest finite
float32 value, not to 0. -/
theorem c5_counterexample :
    sanitize [FVal.inf] ≠ [FVal.fin 0]
  ∧ sanitize [FVal.inf] = [FVal.fin FVal.floatMax] := by
  have hmax : FVal.floatMax ≠ 0 := by norm_num [FVal.floatMax]
  refine ⟨?_, rfl⟩
  intro h
  rw [show sanitize [FVal.inf] = [FVal.fin FVal.floatMax] from rfl] at h
  simp only [List.cons.injEq, and_true, FVal.fin.injEq] at h
  exact hmax h

/-- C5 amended: before the forward pass (in `action` and in `learn`) the
input is sanitized so that every entry is finite: NaN entries become 0,
while `+inf`/`-inf` entries become the largest/least finite float32 value
(not 0); finite entries are unchanged. -/
theorem c5_sanitize_amended (obs : List FVal) (i : Nat) :
    (sanitize obs).all FVal.isFin = true
  ∧ (obs[i]? = some FVal.nan → (sanitize obs)[i]? = some (FVal.fin 0))
  ∧ (obs[i]? = some FVal.inf → (sanitize obs)[i]? = some (FVal.fin FVal.floatMax))
  ∧ (obs[i]? = some FVal.ninf → (sanitize obs)[i]? = some (FVal.fin (-FVal.floatMax)))
  ∧ (∀ q : ℚ, obs[i]? = some (FVal.fin q) → (sanitize obs)[i]? = some (FVal.fin q)) := by
  refine ⟨sanitize_all_isFin obs, ?_, ?_, ?_, ?_⟩
  · intro h
    simp [sanitize, List.getElem?_map, h, FVal.nan_to_num]
  · intro h
    simp [sanitize, List.getElem?_map, h, FVal.nan_to_num]
  · intro h
    simp [sanitize, List.getElem?_map, h, FVal.nan_to_num]
  · intro q h
    simp [sanitize, List.getElem?_map, h, FVal.nan_to_num]

/-- Witness for C5 (amended) on the observation `[nan, inf, -inf, 3]`. -/
theorem c5_sanitize_amended_witness :
    (sanitize [FVal.nan, FVal.inf, FVal.ninf, FVal.fin 3]).all FVal.isFin = true
  ∧ (sanitize [FVal.nan, FVal.inf, FVal.ninf, FVal.fin 3])[1]?
      = some (FVal.fin FVal.floatMax) :=
  ⟨(c5_sanitize_amended [FVal.nan, FVal.inf, FVal.ninf, FVal.fin 3] 1).1,
   (c5_sanitize_amended [FVal.nan, FVal.inf, FVal.ninf, FVal.fin 3] 1).2.2.1 rfl⟩

/-! ### C6, C8, C10 -/

lemma learn_success_clears (p p' : Player)
    (model : List (List ℚ) → List (List FVal) × List ℚ)
    (expf : ℚ → ℚ) (logF : ℚ → FVal)
    (optStep : List ℚ → List ℚ × List ℚ → List FVal → List ℚ)
    (h : p.learn model expf logF optStep = .ok p') :
    p'.states = [] ∧ p'.actions = [] ∧ p'.log_probs = []
      ∧ p'.rewards = [] ∧ p'.dones = [] := by
  unfold Player.learn at h
  split at h
  · cases h
  · split at h
    · cases h
    · split at h
      · cases h
      · split at h
        · cases h
        · split at h
          · cases h
          · injection h with h
            subst h
            exact ⟨rfl, rfl, rfl, rfl, rfl⟩

/-- C6: whenever `learn` completes on its success path (returns `ok`), the
resulting trajectory buffer is empty: all five parallel arrays have
length 0. -/
theorem c6_buffer_cleared_after_learn (p p' : Player)
    (model : List (List ℚ) → List (List FVal) × List ℚ)
    (expf : ℚ → ℚ) (logF : ℚ → FVal)
    (optStep : List ℚ → List ℚ × List ℚ → List FVal → List ℚ)
    (h : p.learn model expf logF optStep = .ok p') :
    p'.states.length = 0 ∧ p'.actions.length = 0 ∧ p'.log_probs.length = 0
      ∧ p'.rewards.length = 0 ∧ p'.dones.length = 0 := by
  obtain ⟨h1, h2, h3, h4, h5⟩ := learn_success_clears p p' model expf logF optStep h
  rw [h1, h2, h3, h4, h5]
  exact ⟨rfl, rfl, rfl, rfl, rfl⟩

/-- The invariant of C8: the five parallel trajectory arrays have equal
length. -/
def lenInv (p : Player) : Prop :=
  p.states.length = p.actions.length ∧ p.states.length = p.log_probs.length
    ∧ p.states.length = p.rewards.length ∧ p.states.length = p.dones.length

/-- C8: the equal-length invariant of the five parallel trajectory arrays
holds at construction (`Player.init` starts all five empty), is preserved
by `store_transition` (each array grows by one), and is preserved by
`learn` when it returns a new state (all five are cleared together);
`action` reads but never writes the buffer (in this embedding it is a
function that does not touch `Player` at all), and a `learn` that raises
returns no new state, leaving the caller's buffer unchanged. -/
theorem c8_parallel_lengths (ss n : Nat) (g ce ec cc : ℚ) (prms : List ℚ)
    (p p' : Player) (s : List FVal) (a : Nat) (lp : FVal) (rw dn : ℚ)
    (model : List (List ℚ) → List (List FVal) × List ℚ)
    (expf : ℚ → ℚ) (logF : ℚ → FVal)
    (optStep : List ℚ → List ℚ × List ℚ → List FVal → List ℚ)
    (hinv : lenInv p)
    (hlearn : p.learn model expf logF optStep = .ok p') :
    lenInv (Player.init ss n g ce ec cc prms)
  ∧ lenInv (p.store_transition s a lp rw dn)
  ∧ lenInv p' := by
  obtain ⟨h1, h2, h3, h4⟩ := hinv
  refine ⟨⟨rfl, rfl, rfl, rfl⟩, ?_, ?_⟩
  · simp only [lenInv, Player.store_transition, List.length_append,
      List.length_cons, List.length_nil]
    omega
  · obtain ⟨e1, e2, e3, e4, e5⟩ :=
      learn_success_clears p p' model expf logF optStep hlearn
    rw [lenInv, e1, e2, e3, e4, e5]
    exact ⟨rfl, rfl, rfl, rfl⟩

/-- A concrete one-step trajectory on which `learn` succeeds, used to
witness the success-path claims. -/
lemma learn_concrete_ok :
    Player.learn ⟨1, 6, 99/100, 1/5, 1/1000, 1/2, [], [[FVal.fin 0]], [0],
        [FVal.fin 0], [0], [1]⟩
      (fun _ => ([[FVal.fin 0]], [0])) (fun _ => 1) (fun _ => FVal.fin 0)
      (fun pr _ _ => pr)
    = .ok ⟨1, 6, 99/100, 1/5, 1/1000, 1/2, [], [], [], [], [], []⟩ := by
  have hrows : learnProbsRows
      ⟨1, 6, 99/100, 1/5, 1/1000, 1/2, [], [[FVal.fin 0]], [0], [FVal.fin 0], [0], [1]⟩
      (fun _ => ([[FVal.fin 0]], [0])) (fun _ => 1) = [[FVal.fin 1]] := by
    norm_num [learnProbsRows, learnFwd, learnStates, softmaxF, listMax,
      FVal.sub, FVal.expv, FVal.add, FVal.div, sanitize, FVal.nan_to_num, FVal.toQ]
  rw [learn_ok _ _ _ _ _ (by decide) (by decide)
    (by
      rw [hrows]
      intro row hrow
      rw [List.mem_singleton] at hrow
      subst hrow
      constructor
      · intro x hx
        rw [List.mem_singleton] at hx
        subst hx
        constructor
        · rfl
        · norm_num [FVal.toQ]
      · norm_num [FVal.toQ])
    (by decide)]

/-- Witness for C6 on a concrete one-step trajectory whose `learn`
succeeds. -/
theorem c6_buffer_cleared_after_learn_witness :
    (⟨1, 6, 99/100, 1/5, 1/1000, 1/2, [], [], [], [], [], []⟩ : Player).states.length = 0
  ∧ (⟨1, 6, 99/100, 1/5, 1/1000, 1/2, [], [], [], [], [], []⟩ : Player).actions.length = 0
  ∧ (⟨1, 6, 99/100, 1/5, 1/1000, 1/2, [], [], [], [], [], []⟩ : Player).log_probs.length = 0
  ∧ (⟨1, 6, 99/100, 1/5, 1/1000, 1/2, [], [], [], [], [], []⟩ : Player).rewards.length = 0
  ∧ (⟨1, 6, 99/100, 1/5, 1/1000, 1/2, [], [], [], [], [], []⟩ : Player).dones.length = 0 :=
  c6_buffer_cleared_after_learn
    ⟨1, 6, 99/100, 1/5, 1/1000, 1/2, [], [[FVal.fin 0]], [0], [FVal.fin 0], [0], [1]⟩
    ⟨1, 6, 99/100, 1/5, 1/1000, 1/2, [], [], [], [], [], []⟩
    (fun _ => ([[FVal.fin 0]], [0])) (fun _ => 1) (fun _ => FVal.fin 0)
    (fun pr _ _ => pr) learn_concrete_ok

/-- Witness for C8 on a concrete one-step trajectory whose `learn`
succeeds. -/
theorem c8_parallel_lengths_witness :
    lenInv (Player.init 4 6 (99/100) (1/5) (1/1000) (1/2) [1, 2])
  ∧ lenInv (Player.store_transition
      ⟨1, 6, 99/100, 1/5, 1/1000, 1/2, [], [[FVal.fin 0]], [0], [FVal.fin 0], [0], [1]⟩
      [FVal.fin 2] 3 (FVal.fin 0) 1 0)
  ∧ lenInv (⟨1, 6, 99/100, 1/5, 1/1000, 1/2, [], [], [], [], [], []⟩ : Player) :=
  c8_parallel_lengths 4 6 (99/100) (1/5) (1/1000) (1/2) [1, 2]
    ⟨1, 6, 99/100, 1/5, 1/1000, 1/2, [], [[FVal.fin 0]], [0], [FVal.fin 0], [0], [1]⟩
    ⟨1, 6, 99/100, 1/5, 1/1000, 1/2, [], [], [], [], [], []⟩
    [FVal.fin 2] 3 (FVal.fin 0) 1 0
    (fun _ => ([[FVal.fin 0]], [0])) (fun _ => 1) (fun _ => FVal.fin 0)
    (fun pr _ _ => pr) ⟨rfl, rfl, rfl, rfl⟩ learn_concrete_ok

/-- C10: calling `learn` with an empty trajectory buffer fails (the
`torch.stack` of the empty `log_probs` list raises) instead of completing
as a no-op; since the failure happens before the optimizer step and before
the clear, no state is mutated: in this embedding the error result carries
no new `Player`, so the caller's buffer is still empty and the network
parameters unchanged. -/
theorem c10_learn_empty_buffer (p : Player)
    (model : List (List ℚ) → List (List FVal) × List ℚ)
    (expf : ℚ → ℚ) (logF : ℚ → FVal)
    (optStep : List ℚ → List ℚ × List ℚ → List FVal → List ℚ)
    (h : p.states = [] ∧ p.actions = [] ∧ p.log_probs = []
          ∧ p.rewards = [] ∧ p.dones = []) :
    p.learn model expf logF optStep = .error "stack expects a non-empty TensorList" :=
  learn_empty p model expf logF optStep (by rw [h.2.2.1]; rfl)

/-- Witness for C10 on a freshly constructed agent. -/
theorem c10_learn_empty_buffer_witness :
    Player.learn (Player.init 4 6 (99/100) (1/5) (1/1000) (1/2) [1, 2])
        (fun _ => ([], [])) (fun _ => 1) (fun _ => FVal.fin 0) (fun pr _ _ => pr)
      = .error "stack expects a non-empty TensorList" :=
  c10_learn_empty_buffer (Player.init 4 6 (99/100) (1/5) (1/1000) (1/2) [1, 2])
    (fun _ => ([], [])) (fun _ => 1) (fun _ => FVal.fin 0) (fun pr _ _ => pr)
    ⟨rfl, rfl, rfl, rfl, rfl⟩

end PokerBot
